import Mathlib

/-!
Shallow embedding of the PymeGo backend's domain logic: the product and
transaction collections, the Mongoose schema validators and pre-save hooks,
the transaction/inventory controllers (createTransaction, updateTransaction,
deleteTransaction), the product controllers (createProduct, updateProduct,
updateStock) and the analytics aggregations (getFinancialSummary,
getExpenseAnalysis, getSalesTrends).

Modelling conventions:
* Money is `ℚ` (the source uses JS numbers; the checked relations are exact
  sums, differences and the 0.01 tolerance).
* `stockQuantity` and line-item `quantity` are `ℤ`, so the source's
  read-modify-write arithmetic is represented without truncation; the schema
  minimums (stock ≥ 0, quantity ≥ 1) are part of validation, as in Mongoose.
* A collection is a `List` of documents; `findOne` is `List.find?` on the
  query predicate; a document `save` replays the document middleware
  (pre-save hooks, then full schema validation) and replaces the stored
  document with the same `_id`.
* `findOneAndUpdate` with `runValidators: true` runs Mongoose *update*
  validators: only the schema-type validators of the paths present in the
  update run; document middleware (`pre('save')` hooks) does not run, and a
  custom validator that reads other fields through `this` has no document
  context on this path, so it cannot succeed.
* Fields irrelevant to every claim (description, sku, variants, tags,
  paymentMethod, reference, timestamps) are omitted; each omitted field is
  constrained only by per-field validators the claims never touch.
-/

set_option linter.unusedVariables false
set_option maxRecDepth 4000
set_option maxHeartbeats 1000000

namespace PymeGo

/-- Transaction.type enum: income | expense | withdrawal (src/types). -/
inductive TxType where
| income
| expense
| withdrawal
deriving DecidableEq, Repr

/-- Calendar date as extracted by the aggregation operators $year, $month,
$dayOfMonth (month 1..12, day 1..31 for real dates). -/
structure DateT where
year : Nat
month : Nat
day : Nat
deriving DecidableEq, Repr

/-- Product document (src/unnamed/part_005, productSchema). -/
structure Product where
id : Nat
businessId : Nat
name : String
category : String
costPrice : ℚ
salePrice : ℚ
margin : ℚ
stockQuantity : ℤ
lowStockThreshold : ℤ
isActive : Bool
deriving DecidableEq, Repr

/-- Transaction line item (transactionProductSchema in Transaction.ts). -/
structure LineItem where
productId : Nat
quantity : ℤ
unitPrice : ℚ
totalPrice : ℚ
deriving DecidableEq, Repr

/-- Transaction document (transactionSchema in Transaction.ts). -/
structure TransactionDoc where
id : Nat
businessId : Nat
type : TxType
category : String
amount : ℚ
date : DateT
products : List LineItem
deriving DecidableEq, Repr

/-- The two collections the claims touch. -/
structure DB where
products : List Product
transactions : List TransactionDoc
deriving DecidableEq, Repr

/-- Product.findOne({ _id, businessId }). -/
def findProduct (ps : List Product) (pid bid : Nat) : Option Product :=
  ps.find? fun p => p.id == pid && p.businessId == bid

/-- productSchema.pre('save'): recompute margin, guarded by JS truthiness of
both prices (`if (this.salePrice && this.costPrice)`, i.e. both nonzero). -/
def productPreSave (p : Product) : Product :=
  if p.salePrice ≠ 0 ∧ p.costPrice ≠ 0 then
    { p with margin := (p.salePrice - p.costPrice) / p.salePrice * 100 }
  else p

/-- productSchema field validators: costPrice ≥ 0, salePrice ≥ 0,
salePrice ≥ costPrice (custom validator with document context),
stockQuantity ≥ 0, lowStockThreshold ≥ 0, name and category required and
length-capped. Margin has no validator. -/
def productValidate (p : Product) : Bool :=
  decide (0 ≤ p.costPrice) && decide (0 ≤ p.salePrice) &&
  decide (p.costPrice ≤ p.salePrice) && decide (0 ≤ p.stockQuantity) &&
  decide (0 ≤ p.lowStockThreshold) &&
  decide (p.name ≠ "") && decide (p.name.length ≤ 100) &&
  decide (p.category ≠ "") && decide (p.category.length ≤ 50)

/-- Store a document back under its `_id` (what a successful save persists). -/
def replaceProduct (ps : List Product) (pid : Nat) (q : Product) : List Product :=
  ps.map fun x => if x.id == pid then q else x

inductive SaveErr where
| validationFailed
deriving DecidableEq, Repr

/-- product.save(): pre('save') hook, then full document validation, then
the write; a failed validation rejects and persists nothing. -/
def saveProduct (ps : List Product) (p : Product) : Except SaveErr (List Product) :=
  let q := productPreSave p
  if productValidate q then .ok (replaceProduct ps p.id q) else .error .validationFailed

/-- transactionProductSchema validators: quantity ≥ 1, unitPrice ≥ 0,
totalPrice ≥ 0. -/
def lineItemValidate (li : LineItem) : Bool :=
  decide (1 ≤ li.quantity) && decide (0 ≤ li.unitPrice) && decide (0 ≤ li.totalPrice)

/-- transactionSchema field validators: amount ≥ 0, category required and
≤ 50 chars, every line item valid. -/
def transactionValidate (t : TransactionDoc) : Bool :=
  decide (0 ≤ t.amount) && decide (t.category ≠ "") && decide (t.category.length ≤ 50) &&
  t.products.all lineItemValidate

/-- Sum of quantity × unitPrice over the line items (the `calculatedTotal`
of the pre-save hook). -/
def lineItemsTotal (ls : List LineItem) : ℚ :=
  (ls.map fun li => (li.quantity : ℚ) * li.unitPrice).sum

/-- transactionSchema.pre('save'): with a non-empty products list the stored
amount must match the line-item total within 0.01. -/
def amountMatchesProducts (t : TransactionDoc) : Bool :=
  if t.products.isEmpty then true
  else decide (|t.amount - lineItemsTotal t.products| ≤ 1 / 100)

/-- Transaction.create: document validation plus the pre('save') hook; on
success the document is appended to the collection. -/
def createTransactionDoc (txs : List TransactionDoc) (t : TransactionDoc) :
    Except SaveErr (List TransactionDoc) :=
  if transactionValidate t && amountMatchesProducts t then .ok (txs ++ [t])
  else .error .validationFailed

inductive CreateOutcome where
| notFound (productId : Nat)
| insufficientStock (productId : Nat)
| productSaveFailed
| invalidTransaction
| created (t : TransactionDoc)
deriving DecidableEq, Repr

/-- HTTP status of each createTransaction outcome: 404 and 400 are set
explicitly in the controller; a rejected Transaction.create funnels through
the error middleware (the pre-save hook's plain Error maps to 500, a
Mongoose ValidationError to 400 — merged here as in `SaveErr`). -/
def createStatus : CreateOutcome → Nat
  | .notFound _ => 404
  | .insufficientStock _ => 400
  | .productSaveFailed => 400
  | .invalidTransaction => 500
  | .created _ => 201

/-- Body of createTransaction's per-line-item loop: look the product up
scoped to the business (404 if absent); for income, reject when stock is
short of the requested quantity (400), otherwise decrement and save. The
loop stops at the first failure, keeping every earlier decrement (the
source takes no compensating rollback). -/
def processLineItems (bid : Nat) (ty : TxType) :
    List LineItem → List Product → List Product × Option CreateOutcome
  | [], ps => (ps, none)
  | li :: rest, ps =>
    match findProduct ps li.productId bid with
    | none => (ps, some (.notFound li.productId))
    | some p =>
      if ty = .income then
        if p.stockQuantity < li.quantity then (ps, some (.insufficientStock li.productId))
        else
          match saveProduct ps { p with stockQuantity := p.stockQuantity - li.quantity } with
          | .error _ => (ps, some .productSaveFailed)
          | .ok ps' => processLineItems bid ty rest ps'
      else processLineItems bid ty rest ps

/-- Request body of POST /transactions (ICreateTransactionRequest). -/
structure CreateReq where
type : TxType
category : String
amount : ℚ
date : DateT
products : List LineItem
deriving DecidableEq, Repr

/-- The document Transaction.create builds: the request body spread with the
caller's businessId (and the new record's id). -/
def mkTransactionDoc (bid newId : Nat) (req : CreateReq) : TransactionDoc :=
  { id := newId, businessId := bid, type := req.type, category := req.category,
    amount := req.amount, date := req.date, products := req.products }

/-- transactionController.createTransaction: process the line items (stock
side effects first), then Transaction.create with the caller's businessId;
a create rejected by validation still keeps the stock updates already
persisted. -/
def createTransaction (st : DB) (bid newId : Nat) (req : CreateReq) :
    CreateOutcome × DB :=
  let step :=
    if req.products.isEmpty then (st.products, none)
    else processLineItems bid req.type req.products st.products
  match step with
  | (ps, some e) => (e, { st with products := ps })
  | (ps, none) =>
    let t : TransactionDoc := mkTransactionDoc bid newId req
    match createTransactionDoc st.transactions t with
    | .error _ => (.invalidTransaction, { st with products := ps })
    | .ok txs => (.created t, { products := ps, transactions := txs })

/-- Transaction.findOne({ _id, businessId }). -/
def findTransaction (txs : List TransactionDoc) (tid bid : Nat) : Option TransactionDoc :=
  txs.find? fun t => t.id == tid && t.businessId == bid

/-- Removal performed by Transaction.findOneAndDelete({ _id, businessId }):
the first matching document is deleted. -/
def removeTransaction : List TransactionDoc → Nat → Nat → List TransactionDoc
  | [], _, _ => []
  | t :: rest, tid, bid =>
    if t.id == tid && t.businessId == bid then rest
    else t :: removeTransaction rest tid bid

/-- deleteTransaction's restoration loop: for each recorded line item, look
the product up; a missing product is silently skipped, a found one gets its
stockQuantity incremented by the recorded quantity and saved. -/
def restoreStock (bid : Nat) : List LineItem → List Product → List Product × Option SaveErr
  | [], ps => (ps, none)
  | li :: rest, ps =>
    match findProduct ps li.productId bid with
    | none => restoreStock bid rest ps
    | some p =>
      match saveProduct ps { p with stockQuantity := p.stockQuantity + li.quantity } with
      | .error e => (ps, some e)
      | .ok ps' => restoreStock bid rest ps'

inductive DeleteOutcome where
| notFound
| restoreFailed
| deleted
deriving DecidableEq, Repr

/-- transactionController.deleteTransaction: findOneAndDelete scoped to
(id, businessId) — 404 when absent — then, for income transactions only,
restore the stock of each recorded line item. -/
def deleteTransaction (st : DB) (bid tid : Nat) : DeleteOutcome × DB :=
  match findTransaction st.transactions tid bid with
  | none => (.notFound, st)
  | some t =>
    let txs := removeTransaction st.transactions tid bid
    if t.type = .income then
      match restoreStock bid t.products st.products with
      | (ps, none) => (.deleted, { products := ps, transactions := txs })
      | (ps, some _) => (.restoreFailed, { products := ps, transactions := txs })
    else (.deleted, { st with transactions := txs })

/-- Request body of POST /products (ICreateProductRequest); the schema
defaults supply margin 0, stockQuantity 0, lowStockThreshold 10,
isActive true when absent. -/
structure CreateProductReq where
name : String
category : String
costPrice : ℚ
salePrice : ℚ
stockQuantity : ℤ := 0
lowStockThreshold : ℤ := 10
isActive : Bool := true
deriving DecidableEq, Repr

/-- productController.createProduct: Product.create runs document
validation and the pre('save') margin hook. -/
def createProduct (st : DB) (bid newId : Nat) (r : CreateProductReq) :
    Except SaveErr (Product × DB) :=
  let p0 : Product :=
    { id := newId, businessId := bid, name := r.name, category := r.category,
      costPrice := r.costPrice, salePrice := r.salePrice, margin := 0,
      stockQuantity := r.stockQuantity, lowStockThreshold := r.lowStockThreshold,
      isActive := r.isActive }
  let p := productPreSave p0
  if productValidate p then .ok (p, { st with products := st.products ++ [p] })
  else .error .validationFailed

/-- Update payload for PUT /products/:id; `none` = path absent from the
update. -/
structure ProductUpdate where
name : Option String := none
category : Option String := none
costPrice : Option ℚ := none
salePrice : Option ℚ := none
stockQuantity : Option ℤ := none
lowStockThreshold : Option ℤ := none
isActive : Option Bool := none
deriving DecidableEq, Repr

def applyProductUpdate (p : Product) (u : ProductUpdate) : Product :=
  { p with
    name := u.name.getD p.name,
    category := u.category.getD p.category,
    costPrice := u.costPrice.getD p.costPrice,
    salePrice := u.salePrice.getD p.salePrice,
    stockQuantity := u.stockQuantity.getD p.stockQuantity,
    lowStockThreshold := u.lowStockThreshold.getD p.lowStockThreshold,
    isActive := u.isActive.getD p.isActive }

/-- Mongoose update validation for findOneAndUpdate({...}, runValidators):
only the validators of the paths present in the update run. The salePrice
custom validator reads `this.costPrice`, but update validators run without a
document context, so a salePrice path can never validate on this route (a
validator that throws counts as failed); the salePrice ≥ costPrice check
never runs for an update that does not touch salePrice. -/
def productUpdateValidate (u : ProductUpdate) : Bool :=
  (match u.name with | none => true | some n => decide (n ≠ "") && decide (n.length ≤ 100)) &&
  (match u.category with | none => true | some c => decide (c ≠ "") && decide (c.length ≤ 50)) &&
  (match u.costPrice with | none => true | some c => decide (0 ≤ c)) &&
  (match u.salePrice with | none => true | some _ => false) &&
  (match u.stockQuantity with | none => true | some s => decide (0 ≤ s)) &&
  (match u.lowStockThreshold with | none => true | some s => decide (0 ≤ s))

inductive ProductUpdateOutcome where
| notFound
| validationFailed
| updated (p : Product)
deriving DecidableEq, Repr

/-- productController.updateProduct: Product.findOneAndUpdate scoped to
(id, businessId) with runValidators — no pre('save') hook runs on this
path, so margin is not recomputed. -/
def updateProduct (st : DB) (bid pid : Nat) (u : ProductUpdate) :
    ProductUpdateOutcome × DB :=
  match findProduct st.products pid bid with
  | none => (.notFound, st)
  | some p =>
    if productUpdateValidate u then
      let p' := applyProductUpdate p u
      (.updated p', { st with products := replaceProduct st.products pid p' })
    else (.validationFailed, st)

inductive StockOutcome where
| notFound
| saveFailed
| updated (p : Product)
deriving DecidableEq, Repr

/-- productController.updateStock: look the product up scoped to the
business; 'add' increments, 'subtract' decrements floored at 0, anything
else assigns the quantity; then product.save() (pre-save margin hook plus
full validation) persists the document. -/
def updateStock (st : DB) (bid pid : Nat) (quantity : ℤ) (operation : String) :
    StockOutcome × DB :=
  match findProduct st.products pid bid with
  | none => (.notFound, st)
  | some p =>
    let newStock : ℤ :=
      if operation = "add" then p.stockQuantity + quantity
      else if operation = "subtract" then max 0 (p.stockQuantity - quantity)
      else quantity
    let q := productPreSave { p with stockQuantity := newStock }
    if productValidate q then
      (.updated q, { st with products := replaceProduct st.products pid q })
    else (.saveFailed, st)

/-- Update payload for PUT /transactions/:id. -/
structure TxUpdate where
type : Option TxType := none
category : Option String := none
amount : Option ℚ := none
date : Option DateT := none
products : Option (List LineItem) := none
deriving DecidableEq, Repr

def applyTxUpdate (t : TransactionDoc) (u : TxUpdate) : TransactionDoc :=
  { t with
    type := u.type.getD t.type,
    category := u.category.getD t.category,
    amount := u.amount.getD t.amount,
    date := u.date.getD t.date,
    products := u.products.getD t.products }

/-- Update validation for Transaction.findOneAndUpdate with runValidators:
the schema-type validators of the updated paths run; the pre('save') hook
comparing amount with the line-item total is document middleware and does
NOT run on findOneAndUpdate. -/
def txUpdateValidate (u : TxUpdate) : Bool :=
  (match u.category with | none => true | some c => decide (c ≠ "") && decide (c.length ≤ 50)) &&
  (match u.amount with | none => true | some a => decide (0 ≤ a)) &&
  (match u.products with | none => true | some ls => ls.all lineItemValidate)

inductive TxUpdateOutcome where
| notFound
| validationFailed
| updated (t : TransactionDoc)
deriving DecidableEq, Repr

def replaceTransaction (txs : List TransactionDoc) (tid : Nat) (t' : TransactionDoc) :
    List TransactionDoc :=
  txs.map fun x => if x.id == tid then t' else x

/-- transactionController.updateTransaction: Transaction.findOneAndUpdate
scoped to (id, businessId), runValidators, new: true; it touches the
transaction collection only. -/
def updateTransaction (st : DB) (bid tid : Nat) (u : TxUpdate) :
    TxUpdateOutcome × DB :=
  match findTransaction st.transactions tid bid with
  | none => (.notFound, st)
  | some t =>
    if txUpdateValidate u then
      let t' := applyTxUpdate t u
      (.updated t', { st with transactions := replaceTransaction st.transactions tid t' })
    else (.validationFailed, st)

/-! ## Analytics aggregations -/

/-- Chronological order on dates (timestamp order restricted to y/m/d). -/
def dateLe (a b : DateT) : Bool :=
  a.year < b.year ||
  (a.year == b.year && (a.month < b.month ||
    (a.month == b.month && a.day ≤ b.day)))

/-- Optional [startDate, endDate] filter ($gte/$lte on date). -/
def dateInRange (d : DateT) (s e : Option DateT) : Bool :=
  (match s with | none => true | some sd => dateLe sd d) &&
  (match e with | none => true | some ed => dateLe d ed)

/-- $match filter of getFinancialSummary: businessId plus date range. -/
def txMatches (bid : Nat) (s e : Option DateT) (t : TransactionDoc) : Bool :=
  t.businessId == bid && dateInRange t.date s e

/-- One $cond-guarded addend of the summary's $group stage. -/
def condAmount (ty : TxType) (t : TransactionDoc) : ℚ :=
  if t.type = ty then t.amount else 0

structure Summary where
totalIncome : ℚ
totalExpenses : ℚ
totalWithdrawals : ℚ
netProfit : ℚ
deriving DecidableEq, Repr

/-- transactionController.getFinancialSummary: one $group over the matched
transactions with per-type conditional sums and netProfit = totalIncome −
(totalExpenses + totalWithdrawals); `result[0] ||` the all-zero default
when the group stage yields no row. -/
def getFinancialSummary (txs : List TransactionDoc) (bid : Nat) (s e : Option DateT) :
    Summary :=
  let f := txs.filter (txMatches bid s e)
  if f.isEmpty then ⟨0, 0, 0, 0⟩
  else
    let ti := (f.map (condAmount .income)).sum
    let te := (f.map (condAmount .expense)).sum
    let tw := (f.map (condAmount .withdrawal)).sum
    ⟨ti, te, tw, ti - (te + tw)⟩

/-- Model of one accumulation step of a $group stage with $sum
accumulators: fold the document's value into the group of its key, creating
the group on first sight. -/
def upsert {κ ν : Type} [DecidableEq κ] [Add ν] :
    List (κ × ν) → κ → ν → List (κ × ν)
  | [], k, v => [(k, v)]
  | (k', v') :: rest, k, v =>
    if k' = k then (k', v' + v) :: rest
    else (k', v') :: upsert rest k v

/-- Model of a $group stage keyed by `key` with $sum of `val` (a pair of
$sum accumulators is a sum in the product monoid). -/
def groupSum {α κ ν : Type} [DecidableEq κ] [Add ν] (key : α → κ) (val : α → ν)
    (l : List α) : List (κ × ν) :=
  l.foldl (fun acc a => upsert acc (key a) (val a)) []

/-- Total of the values recorded under key `k` (specification-side reading
of a $group result). -/
def sumAt {κ ν : Type} [DecidableEq κ] [AddCommMonoid ν] (g : List (κ × ν)) (k : κ) : ν :=
  ((g.filter fun x => decide (x.1 = k)).map fun x => x.2).sum

instance : IsTotal (String × ℚ) (fun x y => y.2 ≤ x.2) :=
  ⟨fun a b => le_total b.2 a.2⟩

instance : IsTrans (String × ℚ) (fun x y => y.2 ≤ x.2) :=
  ⟨fun a b c h1 h2 => le_trans h2 h1⟩

/-- Output row of the expense analysis. -/
structure ExpenseEntry where
category : String
amount : ℚ
percentage : ℚ
deriving DecidableEq, Repr

/-- $match filter of getExpenseAnalysis. -/
def expenseMatches (bid : Nat) (s e : Option DateT) (t : TransactionDoc) : Bool :=
  t.businessId == bid && decide (t.type = TxType.expense) && dateInRange t.date s e

/-- analyticsController.getExpenseAnalysis: group the matched expense
transactions by category summing amount, $sort by totalAmount descending,
then compute each category's share of the total (0 when the total is not
positive). -/
def getExpenseAnalysis (txs : List TransactionDoc) (bid : Nat) (s e : Option DateT) :
    List ExpenseEntry :=
  let f := txs.filter (expenseMatches bid s e)
  let expenseData :=
    List.insertionSort (fun x y : String × ℚ => y.2 ≤ x.2)
      (groupSum (fun t => t.category) (fun t => t.amount) f)
  let totalExpenses := (expenseData.map (fun x => x.2)).sum
  expenseData.map fun x =>
    ⟨x.1, x.2, if 0 < totalExpenses then x.2 / totalExpenses * 100 else 0⟩

/-! ### Sales trends -/

/-- Leap year in the proleptic Gregorian calendar. -/
def isLeap (y : Nat) : Bool :=
  (y % 4 == 0 && y % 100 != 0) || y % 400 == 0

/-- Days in the months before month `m` (1-based) of year `y`. -/
def daysBeforeMonth (y m : Nat) : Nat :=
  (List.range (m - 1)).foldl
    (fun acc i =>
      acc + [31, if isLeap y then 29 else 28, 31, 30, 31, 30, 31, 31, 30, 31, 30, 31].getD i 0)
    0

/-- Day of the year, 1-based. -/
def dayOfYear (d : DateT) : Nat := daysBeforeMonth d.year d.month + d.day

/-- Day of the week (0 = Sunday) by Sakamoto's method. -/
def weekday (d : DateT) : Nat :=
  let t := [0, 3, 2, 5, 0, 3, 5, 1, 4, 6, 2, 4]
  let y := if d.month < 3 then d.year - 1 else d.year
  (y + y / 4 - y / 100 + y / 400 + t.getD (d.month - 1) 0 + d.day) % 7

/-- Aggregation operator $week: week of the year 0..53, weeks begin on
Sunday, days before the first Sunday of the year are week 0. -/
def mongoWeek (d : DateT) : Nat :=
  (dayOfYear d + 6 - weekday d) / 7

/-- Group _id produced by getSalesTrends' switch on period: the fields a
period does not group by are absent from the document. -/
structure BucketKey where
year : Nat
month : Option Nat
day : Option Nat
week : Option Nat
deriving DecidableEq, Repr

/-- Group _id for one transaction date under the selected period; any
period other than daily or weekly falls to the monthly default. -/
def groupKey (period : String) (d : DateT) : BucketKey :=
  match period with
  | "daily" => ⟨d.year, some d.month, some d.day, none⟩
  | "weekly" => ⟨d.year, none, none, some (mongoWeek d)⟩
  | _ => ⟨d.year, some d.month, none, none⟩

/-- Position of an optional field in the BSON sort order: null (an absent
sort field) sorts before every number. -/
def optN : Option Nat → Nat
  | none => 0
  | some n => n + 1

/-- Lexicographic ≤ on four sort keys. -/
def natLex4 (a1 a2 a3 a4 b1 b2 b3 b4 : Nat) : Prop :=
  a1 < b1 ∨ (a1 = b1 ∧ (a2 < b2 ∨ (a2 = b2 ∧ (a3 < b3 ∨ (a3 = b3 ∧ a4 ≤ b4)))))

/-- The $sort specification { year: 1, month: 1, day: 1, week: 1 } applied
to two group rows. -/
def bucketLe {ν : Type} (x y : BucketKey × ν) : Prop :=
  natLex4 x.1.year (optN x.1.month) (optN x.1.day) (optN x.1.week)
    y.1.year (optN y.1.month) (optN y.1.day) (optN y.1.week)

instance {ν : Type} : DecidableRel (@bucketLe ν) := fun x y => by
  unfold bucketLe natLex4
  infer_instance

instance {ν : Type} : IsTotal (BucketKey × ν) bucketLe :=
  ⟨by intro a b; unfold bucketLe natLex4; omega⟩

instance {ν : Type} : IsTrans (BucketKey × ν) bucketLe :=
  ⟨by intro a b c h1 h2; unfold bucketLe natLex4 at *; omega⟩

/-- $match filter of getSalesTrends (income only). -/
def salesMatches (bid : Nat) (s e : Option DateT) (t : TransactionDoc) : Bool :=
  t.businessId == bid && decide (t.type = TxType.income) && dateInRange t.date s e

/-- The grouped and sorted rows of getSalesTrends: per bucket, totalSales
($sum amount) and transactionCount ($sum 1). -/
def salesTrendBuckets (txs : List TransactionDoc) (bid : Nat) (period : String)
    (s e : Option DateT) : List (BucketKey × (ℚ × Nat)) :=
  let f := txs.filter (salesMatches bid s e)
  List.insertionSort bucketLe
    (groupSum (fun t => groupKey period t.date) (fun t => (t.amount, 1)) f)

/-- padStart(2, '0') of a number's decimal rendering. -/
def pad2 (n : Nat) : String :=
  let s := toString n
  if s.length < 2 then "0" ++ s else s

/-- formatDate of the transaction controller: YYYY-MM-DD daily, YYYY-Www
weekly, YYYY-MM monthly (the default); only month, day and week are
zero-padded. -/
def formatDate (period : String) (k : BucketKey) : String :=
  match period with
  | "daily" => toString k.year ++ "-" ++ pad2 (k.month.getD 0) ++ "-" ++ pad2 (k.day.getD 0)
  | "weekly" => toString k.year ++ "-W" ++ pad2 (k.week.getD 0)
  | _ => toString k.year ++ "-" ++ pad2 (k.month.getD 0)

/-- Output row of getSalesTrends. -/
structure TrendPoint where
date : String
sales : ℚ
transactions : Nat
deriving DecidableEq, Repr

/-- transactionController.getSalesTrends: the sorted buckets mapped to
labelled rows. -/
def getSalesTrends (txs : List TransactionDoc) (bid : Nat) (period : String)
    (s e : Option DateT) : List TrendPoint :=
  (salesTrendBuckets txs bid period s e).map fun kv =>
    ⟨formatDate period kv.1, kv.2.1, kv.2.2⟩

/-! ## Concrete fixtures used by counterexamples and witnesses -/

/-- A schema-valid product of business 7 with consistent margin. -/
def demoProduct : Product :=
  { id := 1, businessId := 7, name := "w", category := "c", costPrice := 5,
    salePrice := 10, margin := 50, stockQuantity := 10, lowStockThreshold := 10,
    isActive := true }

/-- A schema-valid product whose stored margin (0) does not match its
prices — reachable because updateProduct never recomputes margin. -/
def staleMarginProduct : Product :=
  { demoProduct with margin := 0, stockQuantity := 3 }

/-- An income transaction whose line items total 60, with amount 60. -/
def sixtyTx : TransactionDoc :=
  { id := 1, businessId := 7, type := .income, category := "sales", amount := 60,
    date := ⟨2024, 1, 1⟩, products := [⟨1, 2, 30, 60⟩] }

/-- The product a costPrice-0 creation stores: margin stays at the schema
default 0 because the pre-save hook's truthiness guard skips recomputation. -/
def zeroCostProduct : Product :=
  { id := 1, businessId := 7, name := "w", category := "c", costPrice := 0,
    salePrice := 10, margin := 0, stockQuantity := 0, lowStockThreshold := 10,
    isActive := true }

/-- Two income transactions of business 7 dated in the same calendar month. -/
def tx40 : TransactionDoc :=
  { id := 1, businessId := 7, type := .income, category := "s", amount := 40,
    date := ⟨2024, 3, 5⟩, products := [] }

def tx60 : TransactionDoc :=
  { id := 2, businessId := 7, type := .income, category := "s", amount := 60,
    date := ⟨2024, 3, 20⟩, products := [] }

/-- DB holding just `demoProduct` under business 7. -/
def demoDb : DB := { products := [demoProduct], transactions := [] }

/-- Well-formed income creation request: one line item, 3 × 10 = 30. -/
def c1Req : CreateReq :=
  { type := .income, category := "sales", amount := 30, date := ⟨2024, 1, 2⟩,
    products := [⟨1, 3, 10, 30⟩] }

/-- Income creation request asking 11 units of a product stocked at 10. -/
def c2Req : CreateReq :=
  { type := .income, category := "sales", amount := 110, date := ⟨2024, 1, 1⟩,
    products := [⟨1, 11, 10, 110⟩] }

/-! ## Lemmas -/

theorem condAmount_sum (l : List TransactionDoc) (ty : TxType) :
    (l.map (condAmount ty)).sum =
      ((l.filter fun t => decide (t.type = ty)).map fun t => t.amount).sum := by
  induction l with
  | nil => rfl
  | cons t rest ih =>
    by_cases h : t.type = ty <;>
      simp [condAmount, h, ih]

theorem productValidate_spec (p : Product) : productValidate p = true ↔
    (0 ≤ p.costPrice ∧ 0 ≤ p.salePrice ∧ p.costPrice ≤ p.salePrice ∧
     0 ≤ p.stockQuantity ∧ 0 ≤ p.lowStockThreshold ∧ p.name ≠ "" ∧
     p.name.length ≤ 100 ∧ p.category ≠ "" ∧ p.category.length ≤ 50) := by
  unfold productValidate
  simp [Bool.and_eq_true, decide_eq_true_eq, and_assoc]

theorem productPreSave_id (p : Product) : (productPreSave p).id = p.id := by
  unfold productPreSave; split <;> rfl

theorem productPreSave_businessId (p : Product) :
    (productPreSave p).businessId = p.businessId := by
  unfold productPreSave; split <;> rfl

theorem productPreSave_name (p : Product) : (productPreSave p).name = p.name := by
  unfold productPreSave; split <;> rfl

theorem productPreSave_category (p : Product) :
    (productPreSave p).category = p.category := by
  unfold productPreSave; split <;> rfl

theorem productPreSave_costPrice (p : Product) :
    (productPreSave p).costPrice = p.costPrice := by
  unfold productPreSave; split <;> rfl

theorem productPreSave_salePrice (p : Product) :
    (productPreSave p).salePrice = p.salePrice := by
  unfold productPreSave; split <;> rfl

theorem productPreSave_stockQuantity (p : Product) :
    (productPreSave p).stockQuantity = p.stockQuantity := by
  unfold productPreSave; split <;> rfl

theorem productPreSave_lowStockThreshold (p : Product) :
    (productPreSave p).lowStockThreshold = p.lowStockThreshold := by
  unfold productPreSave; split <;> rfl

theorem productPreSave_isActive (p : Product) :
    (productPreSave p).isActive = p.isActive := by
  unfold productPreSave; split <;> rfl

theorem productPreSave_margin (p : Product) :
    (productPreSave p).margin =
      if p.salePrice ≠ 0 ∧ p.costPrice ≠ 0 then
        (p.salePrice - p.costPrice) / p.salePrice * 100
      else p.margin := by
  unfold productPreSave; split <;> simp [*]

theorem productValidate_preSave (p : Product) :
    productValidate (productPreSave p) = productValidate p := by
  unfold productPreSave; split <;> rfl

theorem productValidate_setStock (p : Product) (s : ℤ)
    (hp : productValidate p = true) (hs : 0 ≤ s) :
    productValidate { p with stockQuantity := s } = true := by
  rw [productValidate_spec] at hp ⊢
  exact ⟨hp.1, hp.2.1, hp.2.2.1, hs, hp.2.2.2.2⟩

section Grouping

variable {α κ ν : Type} [DecidableEq κ] [AddCommMonoid ν]

theorem sumAt_nil (k : κ) : sumAt ([] : List (κ × ν)) k = 0 := rfl

theorem sumAt_cons_eq (k₁ k : κ) (v : ν) (tl : List (κ × ν)) (h : k₁ = k) :
    sumAt ((k₁, v) :: tl) k = v + sumAt tl k := by
  simp [sumAt, h]

theorem sumAt_cons_ne (k₁ k : κ) (v : ν) (tl : List (κ × ν)) (h : k₁ ≠ k) :
    sumAt ((k₁, v) :: tl) k = sumAt tl k := by
  simp [sumAt, h]

theorem upsert_nil (k : κ) (v : ν) : upsert ([] : List (κ × ν)) k v = [(k, v)] := rfl

theorem upsert_cons_eq (k₁ k : κ) (v₁ v : ν) (tl : List (κ × ν)) (h : k₁ = k) :
    upsert ((k₁, v₁) :: tl) k v = (k₁, v₁ + v) :: tl := by
  simp [upsert, h]

theorem upsert_cons_ne (k₁ k : κ) (v₁ v : ν) (tl : List (κ × ν)) (h : k₁ ≠ k) :
    upsert ((k₁, v₁) :: tl) k v = (k₁, v₁) :: upsert tl k v := by
  simp [upsert, h]

theorem upsert_sumAt (g : List (κ × ν)) (k k' : κ) (v : ν) :
    sumAt (upsert g k v) k' = sumAt g k' + (if k = k' then v else 0) := by
  induction g with
  | nil =>
    by_cases h : k = k'
    · rw [upsert_nil, sumAt_cons_eq k k' v [] h, sumAt_nil, if_pos h]
      abel
    · rw [upsert_nil, sumAt_cons_ne k k' v [] h, sumAt_nil, if_neg h]
      abel
  | cons hd tl ih =>
    obtain ⟨k₁, v₁⟩ := hd
    by_cases h1 : k₁ = k
    · rw [upsert_cons_eq k₁ k v₁ v tl h1]
      by_cases h2 : k₁ = k'
      · have hk : k = k' := h1 ▸ h2
        rw [sumAt_cons_eq k₁ k' (v₁ + v) tl h2, sumAt_cons_eq k₁ k' v₁ tl h2, if_pos hk]
        abel
      · have hk : k ≠ k' := fun he => h2 (h1.symm ▸ he)
        rw [sumAt_cons_ne k₁ k' (v₁ + v) tl h2, sumAt_cons_ne k₁ k' v₁ tl h2, if_neg hk]
        abel
    · rw [upsert_cons_ne k₁ k v₁ v tl h1]
      by_cases h2 : k₁ = k'
      · rw [sumAt_cons_eq k₁ k' v₁ (upsert tl k v) h2, sumAt_cons_eq k₁ k' v₁ tl h2, ih]
        abel
      · rw [sumAt_cons_ne k₁ k' v₁ (upsert tl k v) h2, sumAt_cons_ne k₁ k' v₁ tl h2, ih]

theorem upsert_keys_mem (g : List (κ × ν)) (k k' : κ) (v : ν) :
    k' ∈ (upsert g k v).map (fun x => x.1) ↔
      k' ∈ g.map (fun x => x.1) ∨ k' = k := by
  induction g with
  | nil => simp [upsert_nil]
  | cons hd tl ih =>
    obtain ⟨k₁, v₁⟩ := hd
    by_cases h1 : k₁ = k
    · rw [upsert_cons_eq k₁ k v₁ v tl h1]
      subst h1
      simp
      tauto
    · rw [upsert_cons_ne k₁ k v₁ v tl h1]
      simp [ih]
      tauto

theorem upsert_keys_nodup (g : List (κ × ν)) (k : κ) (v : ν)
    (h : (g.map (fun x => x.1)).Nodup) :
    ((upsert g k v).map (fun x => x.1)).Nodup := by
  induction g with
  | nil => simp [upsert_nil]
  | cons hd tl ih =>
    obtain ⟨k₁, v₁⟩ := hd
    simp only [List.map_cons, List.nodup_cons] at h
    by_cases h1 : k₁ = k
    · rw [upsert_cons_eq k₁ k v₁ v tl h1]
      simp only [List.map_cons, List.nodup_cons]
      exact h
    · rw [upsert_cons_ne k₁ k v₁ v tl h1]
      simp only [List.map_cons, List.nodup_cons]
      refine ⟨?_, ih h.2⟩
      rw [upsert_keys_mem tl k k₁ v]
      rintro (hc | hc)
      · exact h.1 hc
      · exact h1 hc

theorem sumAt_of_not_mem (g : List (κ × ν)) (k : κ)
    (h : k ∉ g.map (fun x => x.1)) : sumAt g k = 0 := by
  induction g with
  | nil => rfl
  | cons hd tl ih =>
    obtain ⟨k₁, v₁⟩ := hd
    simp only [List.map_cons, List.mem_cons] at h
    push_neg at h
    rw [sumAt_cons_ne k₁ k v₁ tl (fun he => h.1 he.symm)]
    exact ih h.2

theorem mem_val_of_keys_nodup (g : List (κ × ν)) (k : κ) (v : ν)
    (hg : (g.map (fun x => x.1)).Nodup) (h : (k, v) ∈ g) : v = sumAt g k := by
  induction g with
  | nil => simp at h
  | cons hd tl ih =>
    obtain ⟨k₁, v₁⟩ := hd
    simp only [List.map_cons, List.nodup_cons] at hg
    rcases List.mem_cons.mp h with he | ht
    · obtain ⟨h1, h2⟩ := Prod.mk.injEq k₁ v₁ k v ▸ he.symm
      subst h1
      subst h2
      rw [sumAt_cons_eq k₁ k₁ v₁ tl rfl]
      rw [sumAt_of_not_mem tl k₁ (by
        intro hc
        exact hg.1 hc)]
      abel
    · have hk : k₁ ≠ k := by
        intro he2
        subst he2
        exact hg.1 (by
          simp only [List.mem_map]
          exact ⟨(k₁, v), ht, rfl⟩)
      rw [sumAt_cons_ne k₁ k v₁ tl hk]
      exact ih hg.2 ht

theorem foldl_upsert_sumAt (key : α → κ) (val : α → ν) (l : List α)
    (acc : List (κ × ν)) (k : κ) :
    sumAt (l.foldl (fun a x => upsert a (key x) (val x)) acc) k =
      sumAt acc k + ((l.filter fun x => decide (key x = k)).map val).sum := by
  induction l generalizing acc with
  | nil => simp
  | cons x tl ih =>
    simp only [List.foldl_cons]
    rw [ih, upsert_sumAt]
    by_cases h : key x = k
    · simp only [h, if_pos, List.filter_cons, decide_eq_true_eq]
      simp [h]
      abel
    · simp only [List.filter_cons]
      simp [h]

theorem foldl_upsert_keys_mem (key : α → κ) (val : α → ν) (l : List α)
    (acc : List (κ × ν)) (k : κ) :
    k ∈ (l.foldl (fun a x => upsert a (key x) (val x)) acc).map (fun x => x.1) ↔
      k ∈ acc.map (fun x => x.1) ∨ k ∈ l.map key := by
  induction l generalizing acc with
  | nil => simp
  | cons x tl ih =>
    simp only [List.foldl_cons, ih, upsert_keys_mem, List.map_cons, List.mem_cons]
    tauto

theorem foldl_upsert_keys_nodup (key : α → κ) (val : α → ν) (l : List α)
    (acc : List (κ × ν)) (h : (acc.map (fun x => x.1)).Nodup) :
    ((l.foldl (fun a x => upsert a (key x) (val x)) acc).map (fun x => x.1)).Nodup := by
  induction l generalizing acc with
  | nil => exact h
  | cons x tl ih =>
    simp only [List.foldl_cons]
    exact ih _ (upsert_keys_nodup acc (key x) (val x) h)

theorem upsert_total (g : List (κ × ν)) (k : κ) (v : ν) :
    ((upsert g k v).map (fun x => x.2)).sum = (g.map (fun x => x.2)).sum + v := by
  induction g with
  | nil => simp [upsert_nil]
  | cons hd tl ih =>
    obtain ⟨k₁, v₁⟩ := hd
    by_cases h1 : k₁ = k
    · rw [upsert_cons_eq k₁ k v₁ v tl h1]
      simp
      abel
    · rw [upsert_cons_ne k₁ k v₁ v tl h1]
      simp [ih]
      abel

theorem foldl_upsert_total (key : α → κ) (val : α → ν) (l : List α)
    (acc : List (κ × ν)) :
    ((l.foldl (fun a x => upsert a (key x) (val x)) acc).map (fun x => x.2)).sum =
      (acc.map (fun x => x.2)).sum + (l.map val).sum := by
  induction l generalizing acc with
  | nil => simp
  | cons x tl ih =>
    simp only [List.foldl_cons, List.map_cons, List.sum_cons]
    rw [ih, upsert_total]
    abel

theorem groupSum_sumAt (key : α → κ) (val : α → ν) (l : List α) (k : κ) :
    sumAt (groupSum key val l) k = ((l.filter fun x => decide (key x = k)).map val).sum := by
  unfold groupSum
  rw [foldl_upsert_sumAt, sumAt_nil, zero_add]

theorem groupSum_keys_mem (key : α → κ) (val : α → ν) (l : List α) (k : κ) :
    k ∈ (groupSum key val l).map (fun x => x.1) ↔ k ∈ l.map key := by
  unfold groupSum
  rw [foldl_upsert_keys_mem]
  simp

theorem groupSum_keys_nodup (key : α → κ) (val : α → ν) (l : List α) :
    ((groupSum key val l).map (fun x => x.1)).Nodup := by
  unfold groupSum
  exact foldl_upsert_keys_nodup key val l [] (by simp)

theorem groupSum_total (key : α → κ) (val : α → ν) (l : List α) :
    ((groupSum key val l).map (fun x => x.2)).sum = (l.map val).sum := by
  unfold groupSum
  rw [foldl_upsert_total]
  simp

end Grouping

theorem sum_map_pair {α M N : Type} [AddCommMonoid M] [AddCommMonoid N]
    (l : List α) (g : α → M) (h : α → N) :
    (l.map fun a => (g a, h a)).sum = ((l.map g).sum, (l.map h).sum) := by
  induction l with
  | nil => rfl
  | cons x tl ih => simp [ih, Prod.mk_add_mk]

theorem sum_map_one {α : Type} (l : List α) :
    (l.map fun _ => (1 : ℕ)).sum = l.length := by
  induction l with
  | nil => rfl
  | cons x tl ih => simp [ih, Nat.add_comm]

theorem findProduct_eq_of_some (ps : List Product) (pid bid : Nat) (p : Product)
    (h : findProduct ps pid bid = some p) : p.id = pid ∧ p.businessId = bid := by
  unfold findProduct at h
  have := List.find?_some h
  simpa using this

theorem findProduct_replace_self (ps : List Product) (pid bid : Nat) (p q : Product)
    (h : findProduct ps pid bid = some p) (hq1 : q.id = pid) (hq2 : q.businessId = bid) :
    findProduct (replaceProduct ps pid q) pid bid = some q := by
  induction ps with
  | nil => simp [findProduct] at h
  | cons hd tl ih =>
    by_cases h1 : hd.id = pid
    · unfold findProduct replaceProduct
      simp only [List.map_cons, h1]
      rw [List.find?_cons_of_pos _ (by simp [hq1, hq2])]
      simp
    · have h2 : findProduct tl pid bid = some p := by
        unfold findProduct at h
        rwa [List.find?_cons_of_neg _ (by simp [h1])] at h
      have hrec := ih h2
      unfold findProduct replaceProduct at hrec ⊢
      simp only [List.map_cons]
      rw [if_neg (by simpa using h1)]
      rw [List.find?_cons_of_neg _ (by simp [h1])]
      exact hrec

theorem productValidate_stock_nonneg (p : Product) (h : productValidate p = true) :
    (0 : ℤ) ≤ p.stockQuantity :=
  ((productValidate_spec p).mp h).2.2.2.1

theorem findTransaction_cons_of_neg (t : TransactionDoc) (txs : List TransactionDoc)
    (tid bid : Nat) (h : (t.id == tid && t.businessId == bid) = false) :
    findTransaction (t :: txs) tid bid = findTransaction txs tid bid := by
  unfold findTransaction
  rw [List.find?_cons_of_neg _ (by simp_all)]

theorem findTransaction_append_none (txs1 txs2 : List TransactionDoc) (tid bid : Nat)
    (h : findTransaction txs1 tid bid = none) :
    findTransaction (txs1 ++ txs2) tid bid = findTransaction txs2 tid bid := by
  unfold findTransaction at h ⊢
  rw [List.find?_append, h]
  rfl

theorem removeTransaction_cons_of_pos (t : TransactionDoc) (txs : List TransactionDoc)
    (tid bid : Nat) (hp : (t.id == tid && t.businessId == bid) = true) :
    removeTransaction (t :: txs) tid bid = txs := by
  conv_lhs => unfold removeTransaction
  rw [if_pos hp]

theorem removeTransaction_cons_of_neg (t : TransactionDoc) (txs : List TransactionDoc)
    (tid bid : Nat) (hp : ¬(t.id == tid && t.businessId == bid) = true) :
    removeTransaction (t :: txs) tid bid = t :: removeTransaction txs tid bid := by
  conv_lhs => unfold removeTransaction
  rw [if_neg hp]

theorem processLineItems_nil (bid : Nat) (ty : TxType) (ps : List Product) :
    processLineItems bid ty [] ps = (ps, none) := rfl

theorem processLineItems_cons (bid : Nat) (ty : TxType) (li : LineItem)
    (rest : List LineItem) (ps : List Product) :
    processLineItems bid ty (li :: rest) ps =
      match findProduct ps li.productId bid with
      | none => (ps, some (.notFound li.productId))
      | some p =>
        if ty = .income then
          if p.stockQuantity < li.quantity then
            (ps, some (.insufficientStock li.productId))
          else
            match saveProduct ps { p with stockQuantity := p.stockQuantity - li.quantity } with
            | .error _ => (ps, some .productSaveFailed)
            | .ok ps2 => processLineItems bid ty rest ps2
        else processLineItems bid ty rest ps := rfl

theorem restoreStock_nil (bid : Nat) (ps : List Product) :
    restoreStock bid [] ps = (ps, none) := rfl

theorem restoreStock_cons (bid : Nat) (li : LineItem) (rest : List LineItem)
    (ps : List Product) :
    restoreStock bid (li :: rest) ps =
      match findProduct ps li.productId bid with
      | none => restoreStock bid rest ps
      | some p =>
        match saveProduct ps { p with stockQuantity := p.stockQuantity + li.quantity } with
        | .error e => (ps, some e)
        | .ok ps2 => restoreStock bid rest ps2 := rfl

theorem restoreStock_cons_none (bid : Nat) (li : LineItem) (rest : List LineItem)
    (ps : List Product) (h0 : findProduct ps li.productId bid = none) :
    restoreStock bid (li :: rest) ps = restoreStock bid rest ps := by
  rw [restoreStock_cons, h0]

theorem removeTransaction_append_none (txs1 txs2 : List TransactionDoc) (tid bid : Nat)
    (h : findTransaction txs1 tid bid = none) :
    removeTransaction (txs1 ++ txs2) tid bid = txs1 ++ removeTransaction txs2 tid bid := by
  induction txs1 with
  | nil => simp
  | cons t rest ih =>
    unfold findTransaction at h
    rw [List.find?_eq_none] at h
    have hp : ¬(t.id == tid && t.businessId == bid) = true := h t (by simp)
    have hrest : findTransaction rest tid bid = none := by
      unfold findTransaction
      rw [List.find?_eq_none]
      exact fun x hx => h x (List.mem_cons_of_mem t hx)
    simp only [List.cons_append]
    rw [removeTransaction_cons_of_neg t (rest ++ txs2) tid bid hp, ih hrest]

theorem restoreStock_of_missing (bid : Nat) (ls : List LineItem) (ps : List Product)
    (h : ∀ li ∈ ls, findProduct ps li.productId bid = none) :
    restoreStock bid ls ps = (ps, none) := by
  induction ls with
  | nil => rfl
  | cons li rest ih =>
    have h0 : findProduct ps li.productId bid = none := h li (by simp)
    have ihr := ih fun x hx => h x (by simp [hx])
    rw [restoreStock_cons_none bid li rest ps h0]
    exact ihr

theorem processLineItems_append (bid : Nat) (ty : TxType) (l1 l2 : List LineItem)
    (ps : List Product) :
    processLineItems bid ty (l1 ++ l2) ps =
      match processLineItems bid ty l1 ps with
      | (ps1, none) => processLineItems bid ty l2 ps1
      | (ps1, some e) => (ps1, some e) := by
  induction l1 generalizing ps with
  | nil => rw [List.nil_append, processLineItems_nil]
  | cons li rest ih =>
    rw [List.cons_append, processLineItems_cons, processLineItems_cons]
    cases hf : findProduct ps li.productId bid with
    | none => rfl
    | some p =>
      by_cases hty : ty = .income
      · by_cases hst : p.stockQuantity < li.quantity
        · simp only [if_pos hty, if_pos hst]
        · simp only [if_pos hty, if_neg hst]
          cases hs : saveProduct ps { p with stockQuantity := p.stockQuantity - li.quantity } with
          | error e => rfl
          | ok ps2 => exact ih ps2
      · simp only [if_neg hty]
        exact ih ps

theorem createTransaction_run_err (st : DB) (bid newId : Nat) (req : CreateReq)
    (ps : List Product) (e : CreateOutcome)
    (hne : req.products.isEmpty = false)
    (h : processLineItems bid req.type req.products st.products = (ps, some e)) :
    createTransaction st bid newId req = (e, { st with products := ps }) := by
  unfold createTransaction
  simp only [hne, Bool.false_eq_true, if_false, h]

theorem createTransaction_run_ok (st : DB) (bid newId : Nat) (req : CreateReq)
    (ps : List Product)
    (hne : req.products.isEmpty = false)
    (h : processLineItems bid req.type req.products st.products = (ps, none))
    (hval : transactionValidate (mkTransactionDoc bid newId req) = true)
    (hmatch : amountMatchesProducts (mkTransactionDoc bid newId req) = true) :
    createTransaction st bid newId req =
      (.created (mkTransactionDoc bid newId req),
        { products := ps,
          transactions := st.transactions ++ [mkTransactionDoc bid newId req] }) := by
  unfold createTransaction createTransactionDoc
  simp only [hne, Bool.false_eq_true, if_false, h, hval, hmatch, Bool.and_self, if_true]

theorem deleteTransaction_run_income (st : DB) (bid tid : Nat) (t : TransactionDoc)
    (ps2 : List Product)
    (hfind : findTransaction st.transactions tid bid = some t)
    (hty : t.type = .income)
    (hrs : restoreStock bid t.products st.products = (ps2, none)) :
    deleteTransaction st bid tid =
      (.deleted, { products := ps2,
                   transactions := removeTransaction st.transactions tid bid }) := by
  unfold deleteTransaction
  simp only [hfind, hty, if_true, hrs]

/-! ## Claims -/

/-- C10: updateTransaction never modifies any product's stockQuantity: for
every update scoped to (id, businessId), the product collection of the
resulting state is exactly the product collection of the initial state — no
compensating stock movement exists on the update path. -/
theorem c10_updateTransaction_products_frame (st : DB) (bid tid : Nat) (u : TxUpdate) :
    ((updateTransaction st bid tid u).2).products = st.products := by
  unfold updateTransaction
  cases findTransaction st.transactions tid bid with
  | none => rfl
  | some t => by_cases h : txUpdateValidate u = true <;> simp [h]

/-- C6: the financial summary equals, for every transaction set and optional
date range, the per-type sums over the matched transactions with netProfit
= totalIncome − (totalExpenses + totalWithdrawals); and an empty matched
set yields the all-zero summary (a value, never an error). -/
theorem c6_financial_summary (txs : List TransactionDoc) (bid : Nat) (s e : Option DateT) :
    getFinancialSummary txs bid s e =
      { totalIncome :=
          (((txs.filter (txMatches bid s e)).filter fun t =>
            decide (t.type = TxType.income)).map fun t => t.amount).sum,
        totalExpenses :=
          (((txs.filter (txMatches bid s e)).filter fun t =>
            decide (t.type = TxType.expense)).map fun t => t.amount).sum,
        totalWithdrawals :=
          (((txs.filter (txMatches bid s e)).filter fun t =>
            decide (t.type = TxType.withdrawal)).map fun t => t.amount).sum,
        netProfit :=
          (((txs.filter (txMatches bid s e)).filter fun t =>
            decide (t.type = TxType.income)).map fun t => t.amount).sum -
          ((((txs.filter (txMatches bid s e)).filter fun t =>
            decide (t.type = TxType.expense)).map fun t => t.amount).sum +
           (((txs.filter (txMatches bid s e)).filter fun t =>
            decide (t.type = TxType.withdrawal)).map fun t => t.amount).sum) } ∧
    (txs.filter (txMatches bid s e) = [] →
      getFinancialSummary txs bid s e = ⟨0, 0, 0, 0⟩) := by
  constructor
  · unfold getFinancialSummary
    by_cases h : (txs.filter (txMatches bid s e)).isEmpty
    · rw [List.isEmpty_iff] at h
      simp [h]
    · simp only [h, if_false, Bool.false_eq_true]
      rw [condAmount_sum, condAmount_sum, condAmount_sum]
  · intro h
    unfold getFinancialSummary
    simp [h]

/-- C3 (code bug): the amount-vs-line-items consistency is enforced only by
the transactionSchema pre('save') hook, which Transaction.findOneAndUpdate
does not run; updateTransaction therefore persists an income transaction
whose amount (100) differs from its line-item total (60) by more than 0.01,
while the same document is rejected on the create path. -/
theorem c3_update_bypasses_amount_check :
    (updateTransaction { products := [], transactions := [sixtyTx] } 7 1
        { amount := some 100 }).1 = .updated { sixtyTx with amount := 100 } ∧
    (updateTransaction { products := [], transactions := [sixtyTx] } 7 1
        { amount := some 100 }).2.transactions = [{ sixtyTx with amount := 100 }] ∧
    amountMatchesProducts { sixtyTx with amount := 100 } = false ∧
    (createTransactionDoc [] { sixtyTx with amount := 100 }).toOption = none := by
  with_unfolding_all decide

/-- C4 (code bug): updateProduct runs Mongoose update validators, which only
check the paths present in the update; an update that raises costPrice to 20
on a product with salePrice 10 succeeds and persists a product violating
salePrice ≥ costPrice — the schema's own salePrice validator (checked on the
create path, as `productValidate` shows) is bypassed. -/
theorem c4_update_bypasses_price_invariant :
    (updateProduct { products := [demoProduct], transactions := [] } 7 1
        { costPrice := some 20 }).1 = .updated { demoProduct with costPrice := 20 } ∧
    (updateProduct { products := [demoProduct], transactions := [] } 7 1
        { costPrice := some 20 }).2.products = [{ demoProduct with costPrice := 20 }] ∧
    ({ demoProduct with costPrice := 20 } : Product).salePrice <
      ({ demoProduct with costPrice := 20 } : Product).costPrice ∧
    productValidate { demoProduct with costPrice := 20 } = false := by
  with_unfolding_all decide

/-- C5 (code bug): the margin pre-save hook is guarded by JS truthiness of
both prices, so creating a product with costPrice = 0 and salePrice = 10
succeeds but leaves margin at the default 0, where the specified formula
(salePrice − costPrice) / salePrice × 100 gives 100. -/
theorem c5_margin_not_recomputed :
    (createProduct { products := [], transactions := [] } 7 1
        { name := "w", category := "c", costPrice := 0, salePrice := 10 }).toOption =
      some (zeroCostProduct, { products := [zeroCostProduct], transactions := [] }) ∧
    zeroCostProduct.margin = 0 ∧
    (zeroCostProduct.salePrice - zeroCostProduct.costPrice) / zeroCostProduct.salePrice * 100
      = 100 ∧
    zeroCostProduct.margin ≠
      (zeroCostProduct.salePrice - zeroCostProduct.costPrice) / zeroCostProduct.salePrice * 100 := by
  with_unfolding_all decide

/-- C9 (counterexample): a direct stock adjustment is followed by
product.save(), which re-runs the pre-save margin hook; on a stored product
whose margin (0) is stale w.r.t. its prices (5/10), updateStock with
operation "set" changes margin to 50 — a product field other than
stockQuantity — refuting "no other product field is changed". -/
theorem c9_counterexample :
    (updateStock { products := [staleMarginProduct], transactions := [] } 7 1 4 "set").1 =
      .updated { staleMarginProduct with stockQuantity := 4, margin := 50 } ∧
    ((updateStock { products := [staleMarginProduct], transactions := [] } 7 1 4 "set").2.products.map
      fun p => p.margin) = [50] ∧
    staleMarginProduct.margin = 0 := by
  with_unfolding_all decide

/-- C9 (amended): for a stock adjustment on an existing, schema-valid
product with quantity ≥ 0, 'add' sets stockQuantity to old + quantity,
'subtract' to max(0, old − quantity) (never negative), and any other
operation value to exactly quantity; no field other than stockQuantity and
margin changes, and margin — because the subsequent product.save() re-runs
the pre-save hook — is recomputed from the current prices when both are
nonzero and kept otherwise. -/
theorem c9_updateStock_amended (st : DB) (bid pid : Nat) (quantity : ℤ)
    (operation : String) (p : Product)
    (hfind : findProduct st.products pid bid = some p)
    (hvalid : productValidate p = true)
    (hq : 0 ≤ quantity) :
    ∃ p', (updateStock st bid pid quantity operation).1 = .updated p' ∧
      (updateStock st bid pid quantity operation).2.products =
        replaceProduct st.products pid p' ∧
      (operation = "add" → p'.stockQuantity = p.stockQuantity + quantity) ∧
      (operation = "subtract" →
        p'.stockQuantity = max 0 (p.stockQuantity - quantity) ∧ 0 ≤ p'.stockQuantity) ∧
      (operation ≠ "add" → operation ≠ "subtract" → p'.stockQuantity = quantity) ∧
      p'.id = p.id ∧ p'.businessId = p.businessId ∧ p'.name = p.name ∧
      p'.category = p.category ∧ p'.costPrice = p.costPrice ∧
      p'.salePrice = p.salePrice ∧ p'.lowStockThreshold = p.lowStockThreshold ∧
      p'.isActive = p.isActive ∧
      p'.margin =
        (if p.salePrice ≠ 0 ∧ p.costPrice ≠ 0 then
          (p.salePrice - p.costPrice) / p.salePrice * 100
        else p.margin) := by
  have hstock : (0 : ℤ) ≤ p.stockQuantity := ((productValidate_spec p).mp hvalid).2.2.2.1
  have hns : (0 : ℤ) ≤
      (if operation = "add" then p.stockQuantity + quantity
       else if operation = "subtract" then max 0 (p.stockQuantity - quantity)
       else quantity) := by
    split
    · exact add_nonneg hstock hq
    · split
      · exact le_max_left 0 _
      · exact hq
  have hval' : productValidate (productPreSave
      { p with stockQuantity :=
          if operation = "add" then p.stockQuantity + quantity
          else if operation = "subtract" then max 0 (p.stockQuantity - quantity)
          else quantity }) = true := by
    rw [productValidate_preSave]
    exact productValidate_setStock p _ hvalid hns
  refine ⟨productPreSave
      { p with stockQuantity :=
          if operation = "add" then p.stockQuantity + quantity
          else if operation = "subtract" then max 0 (p.stockQuantity - quantity)
          else quantity }, ?_, ?_, ?_, ?_, ?_, ?_, ?_, ?_, ?_, ?_, ?_, ?_, ?_, ?_⟩
  · simp only [updateStock, hfind, hval', if_true]
  · simp only [updateStock, hfind, hval', if_true]
  · intro ha
    rw [productPreSave_stockQuantity]
    simp [ha]
  · intro hs
    rw [productPreSave_stockQuantity]
    refine ⟨by simp [hs], ?_⟩
    exact hns
  · intro ha hs
    rw [productPreSave_stockQuantity]
    simp [ha, hs]
  · rw [productPreSave_id]
  · rw [productPreSave_businessId]
  · rw [productPreSave_name]
  · rw [productPreSave_category]
  · rw [productPreSave_costPrice]
  · rw [productPreSave_salePrice]
  · rw [productPreSave_lowStockThreshold]
  · rw [productPreSave_isActive]
  · rw [productPreSave_margin]

/-- Witness for C9's amended theorem at a concrete input: subtracting 5
from stock 10 on `demoProduct`. -/
theorem c9_updateStock_amended_witness :
    ∃ p', (updateStock { products := [demoProduct], transactions := [] } 7 1 5 "subtract").1
        = .updated p' ∧
      (updateStock { products := [demoProduct], transactions := [] } 7 1 5 "subtract").2.products =
        replaceProduct [demoProduct] 1 p' ∧
      ("subtract" = "add" → p'.stockQuantity = demoProduct.stockQuantity + 5) ∧
      (("subtract" : String) = "subtract" →
        p'.stockQuantity = max 0 (demoProduct.stockQuantity - 5) ∧ 0 ≤ p'.stockQuantity) ∧
      (("subtract" : String) ≠ "add" → ("subtract" : String) ≠ "subtract" →
        p'.stockQuantity = 5) ∧
      p'.id = demoProduct.id ∧ p'.businessId = demoProduct.businessId ∧
      p'.name = demoProduct.name ∧ p'.category = demoProduct.category ∧
      p'.costPrice = demoProduct.costPrice ∧ p'.salePrice = demoProduct.salePrice ∧
      p'.lowStockThreshold = demoProduct.lowStockThreshold ∧
      p'.isActive = demoProduct.isActive ∧
      p'.margin =
        (if demoProduct.salePrice ≠ 0 ∧ demoProduct.costPrice ≠ 0 then
          (demoProduct.salePrice - demoProduct.costPrice) / demoProduct.salePrice * 100
        else demoProduct.margin) :=
  c9_updateStock_amended { products := [demoProduct], transactions := [] } 7 1 5 "subtract"
    demoProduct (by with_unfolding_all decide) (by with_unfolding_all decide)
    (by with_unfolding_all decide)

/-- C7: expense analysis over the caller's expense transactions in range
yields one entry per category (no duplicate categories; the entry
categories are exactly the matched transactions' categories), each entry's
amount is the sum of that category's amounts, the percentage is
amount / totalExpenses × 100 when the total is positive and 0 otherwise,
entries are sorted descending by amount; and a single category totaling 100
of total 100 yields percentage 100. -/
theorem c7_expense_analysis (txs : List TransactionDoc) (bid : Nat) (s e : Option DateT) :
    List.Sorted (fun a b : ExpenseEntry => b.amount ≤ a.amount)
      (getExpenseAnalysis txs bid s e) ∧
    ((getExpenseAnalysis txs bid s e).map fun en => en.category).Nodup ∧
    (∀ c : String,
      c ∈ (getExpenseAnalysis txs bid s e).map (fun en => en.category) ↔
      c ∈ (txs.filter (expenseMatches bid s e)).map (fun t => t.category)) ∧
    (∀ en ∈ getExpenseAnalysis txs bid s e,
      en.amount = (((txs.filter (expenseMatches bid s e)).filter fun t =>
          decide (t.category = en.category)).map fun t => t.amount).sum ∧
      en.percentage =
        (if 0 < ((txs.filter (expenseMatches bid s e)).map fun t => t.amount).sum then
          en.amount / ((txs.filter (expenseMatches bid s e)).map fun t => t.amount).sum * 100
        else 0)) ∧
    getExpenseAnalysis [{ id := 1, businessId := 7, type := TxType.expense,
                          category := "rent", amount := 100, date := ⟨2024, 3, 5⟩,
                          products := [] }]
        7 none none = [⟨"rent", 100, 100⟩] := by
  have hperm := List.perm_insertionSort (fun x y : String × ℚ => y.2 ≤ x.2)
    (groupSum (fun t : TransactionDoc => t.category) (fun t => t.amount)
      (txs.filter (expenseMatches bid s e)))
  have hnd := groupSum_keys_nodup (fun t : TransactionDoc => t.category)
    (fun t => t.amount) (txs.filter (expenseMatches bid s e))
  have hsort := List.sorted_insertionSort (fun x y : String × ℚ => y.2 ≤ x.2)
    (groupSum (fun t : TransactionDoc => t.category) (fun t => t.amount)
      (txs.filter (expenseMatches bid s e)))
  refine ⟨?_, ?_, ?_, ?_, ?_⟩
  · simp only [getExpenseAnalysis]
    exact List.Pairwise.map _ (fun a b h => h) hsort
  · simp only [getExpenseAnalysis, List.map_map]
    exact ((hperm.map fun x => x.1).nodup_iff).mpr hnd
  · intro c
    simp only [getExpenseAnalysis, List.map_map]
    exact ((hperm.map fun x => x.1).mem_iff).trans
      (groupSum_keys_mem (fun t : TransactionDoc => t.category) (fun t => t.amount)
        (txs.filter (expenseMatches bid s e)) c)
  · intro en hen
    simp only [getExpenseAnalysis, List.mem_map] at hen
    obtain ⟨x, hx, rfl⟩ := hen
    obtain ⟨xk, xv⟩ := x
    have hxg := hperm.mem_iff.mp hx
    have hval := mem_val_of_keys_nodup _ xk xv hnd hxg
    rw [groupSum_sumAt] at hval
    have htot : ((List.insertionSort (fun x y : String × ℚ => y.2 ≤ x.2)
        (groupSum (fun t : TransactionDoc => t.category) (fun t => t.amount)
          (txs.filter (expenseMatches bid s e)))).map fun x => x.2).sum =
        ((txs.filter (expenseMatches bid s e)).map fun t => t.amount).sum := by
      rw [(hperm.map fun x => x.2).sum_eq]
      exact groupSum_total _ _ _
    refine ⟨hval, ?_⟩
    rw [← htot]
  · with_unfolding_all decide

/-- C8: the sales trend groups the matched income transactions by the
period-selected bucket key, sums amount and counts transactions per bucket,
emits the buckets sorted ascending under the aggregation's sort
specification (year, month, day, week — chronological for each period
shape), labels each bucket with formatDate (YYYY-MM-DD daily, YYYY-Www
weekly, YYYY-MM monthly); and two incomes dated in the same calendar month
yield, under period monthly, exactly one bucket whose sales is the sum of
both amounts. -/
theorem c8_sales_trends (txs : List TransactionDoc) (bid : Nat) (period : String)
    (s e : Option DateT) :
    getSalesTrends txs bid period s e =
      (salesTrendBuckets txs bid period s e).map
        (fun kv => ⟨formatDate period kv.1, kv.2.1, kv.2.2⟩) ∧
    List.Sorted bucketLe (salesTrendBuckets txs bid period s e) ∧
    ((salesTrendBuckets txs bid period s e).map fun kv => kv.1).Nodup ∧
    (∀ k : BucketKey,
      k ∈ (salesTrendBuckets txs bid period s e).map (fun kv => kv.1) ↔
      k ∈ (txs.filter (salesMatches bid s e)).map (fun t => groupKey period t.date)) ∧
    (∀ kv ∈ salesTrendBuckets txs bid period s e,
      kv.2.1 = (((txs.filter (salesMatches bid s e)).filter fun t =>
          decide (groupKey period t.date = kv.1)).map fun t => t.amount).sum ∧
      kv.2.2 = ((txs.filter (salesMatches bid s e)).filter fun t =>
          decide (groupKey period t.date = kv.1)).length) ∧
    getSalesTrends [tx40, tx60] 7 "monthly" none none = [⟨"2024-03", 100, 2⟩] := by
  have hperm := List.perm_insertionSort (@bucketLe (ℚ × ℕ))
    (groupSum (fun t : TransactionDoc => groupKey period t.date)
      (fun t => (t.amount, (1 : ℕ))) (txs.filter (salesMatches bid s e)))
  have hnd := groupSum_keys_nodup (fun t : TransactionDoc => groupKey period t.date)
    (fun t => (t.amount, (1 : ℕ))) (txs.filter (salesMatches bid s e))
  have hsort := List.sorted_insertionSort (@bucketLe (ℚ × ℕ))
    (groupSum (fun t : TransactionDoc => groupKey period t.date)
      (fun t => (t.amount, (1 : ℕ))) (txs.filter (salesMatches bid s e)))
  refine ⟨rfl, ?_, ?_, ?_, ?_, ?_⟩
  · simp only [salesTrendBuckets]
    exact hsort
  · simp only [salesTrendBuckets]
    exact ((hperm.map fun kv => kv.1).nodup_iff).mpr hnd
  · intro k
    simp only [salesTrendBuckets]
    exact ((hperm.map fun kv => kv.1).mem_iff).trans
      (groupSum_keys_mem (fun t : TransactionDoc => groupKey period t.date)
        (fun t => (t.amount, (1 : ℕ))) (txs.filter (salesMatches bid s e)) k)
  · intro kv hkv
    simp only [salesTrendBuckets] at hkv
    obtain ⟨kk, vv⟩ := kv
    have hxg := hperm.mem_iff.mp hkv
    have hval := mem_val_of_keys_nodup _ kk vv hnd hxg
    rw [groupSum_sumAt, sum_map_pair] at hval
    constructor
    · rw [hval]
    · rw [hval]
      simp [sum_map_one]
  · with_unfolding_all decide

/-- C2: in an income creation, once the line items before `li` have all been
processed successfully (state `db1`; in particular `db1 = st.products` when
`li` is first), a missing product fails the whole operation with not-found
(404) and an existing product with stockQuantity below the requested
quantity fails it with insufficient-stock (400); in both cases no
transaction record is created and the checked product's stockQuantity is
left exactly as found. -/
theorem c2_create_income_failures (st : DB) (bid newId : Nat) (req : CreateReq)
    (pre : List LineItem) (li : LineItem) (post : List LineItem) (db1 : List Product)
    (hty : req.type = TxType.income)
    (hprod : req.products = pre ++ li :: post)
    (hpre : processLineItems bid TxType.income pre st.products = (db1, none)) :
    (findProduct db1 li.productId bid = none →
      createTransaction st bid newId req =
        (.notFound li.productId, { st with products := db1 }) ∧
      createStatus (createTransaction st bid newId req).1 = 404 ∧
      ((createTransaction st bid newId req).2).transactions = st.transactions) ∧
    (∀ p : Product, findProduct db1 li.productId bid = some p →
      p.stockQuantity < li.quantity →
      createTransaction st bid newId req =
        (.insufficientStock li.productId, { st with products := db1 }) ∧
      createStatus (createTransaction st bid newId req).1 = 400 ∧
      ((createTransaction st bid newId req).2).transactions = st.transactions ∧
      findProduct ((createTransaction st bid newId req).2).products li.productId bid
        = some p) := by
  have hne : req.products.isEmpty = false := by
    rw [hprod]; cases pre <;> simp
  constructor
  · intro hnf
    have hrun : createTransaction st bid newId req =
        (.notFound li.productId, { st with products := db1 }) := by
      apply createTransaction_run_err st bid newId req db1 _ hne
      rw [hprod, hty, processLineItems_append, hpre]
      show processLineItems bid TxType.income (li :: post) db1 =
        (db1, some (CreateOutcome.notFound li.productId))
      rw [processLineItems_cons, hnf]
    exact ⟨hrun, by rw [hrun]; rfl, by rw [hrun]⟩
  · intro p hf hst
    have hrun : createTransaction st bid newId req =
        (.insufficientStock li.productId, { st with products := db1 }) := by
      apply createTransaction_run_err st bid newId req db1 _ hne
      rw [hprod, hty, processLineItems_append, hpre]
      show processLineItems bid TxType.income (li :: post) db1 =
        (db1, some (CreateOutcome.insufficientStock li.productId))
      rw [processLineItems_cons, hf]
      simp [hst]
    refine ⟨hrun, by rw [hrun]; rfl, by rw [hrun], ?_⟩
    rw [hrun]
    exact hf

/-- Witness for C2 at a concrete input: requesting 11 units of a product
stocked at 10 fails with insufficient stock and leaves the state intact. -/
theorem c2_create_income_failures_witness :
    createTransaction demoDb 7 1 c2Req =
      (.insufficientStock 1, { demoDb with products := [demoProduct] }) :=
  ((c2_create_income_failures demoDb 7 1 c2Req [] ⟨1, 11, 10, 110⟩ [] [demoProduct]
      rfl rfl rfl).2 demoProduct (by with_unfolding_all decide)
      (by with_unfolding_all decide)).1

/-- C1: creating an income transaction whose single line item requests
q ≤ stock units of an existing, schema-valid product of the business (with
a well-formed transaction body) succeeds and leaves the product's
stockQuantity at stock − q; deleting that same transaction afterwards
restores stockQuantity to its original value and removes the record; and on
any deletion of an income transaction, line-item products that no longer
exist are silently skipped: the deletion still succeeds and the product
collection is untouched. -/
theorem c1_income_create_delete_roundtrip (st : DB) (bid newId : Nat) (req : CreateReq)
    (li : LineItem) (p : Product)
    (hty : req.type = TxType.income)
    (hprod : req.products = [li])
    (hfind : findProduct st.products li.productId bid = some p)
    (hq : li.quantity ≤ p.stockQuantity)
    (hpv : productValidate p = true)
    (htv : transactionValidate (mkTransactionDoc bid newId req) = true)
    (htm : amountMatchesProducts (mkTransactionDoc bid newId req) = true)
    (hfresh : findTransaction st.transactions newId bid = none) :
    (createTransaction st bid newId req).1 = .created (mkTransactionDoc bid newId req) ∧
    (∃ p1, findProduct ((createTransaction st bid newId req).2).products li.productId bid
        = some p1 ∧
      p1.stockQuantity = p.stockQuantity - li.quantity) ∧
    (deleteTransaction ((createTransaction st bid newId req).2) bid newId).1 = .deleted ∧
    (∃ p2, findProduct
        ((deleteTransaction ((createTransaction st bid newId req).2) bid newId).2).products
        li.productId bid = some p2 ∧
      p2.stockQuantity = p.stockQuantity) ∧
    ((deleteTransaction ((createTransaction st bid newId req).2) bid newId).2).transactions
      = st.transactions ∧
    (∀ (db : DB) (bid2 tid : Nat) (t : TransactionDoc),
      findTransaction db.transactions tid bid2 = some t → t.type = TxType.income →
      (∀ li2 ∈ t.products, findProduct db.products li2.productId bid2 = none) →
      (deleteTransaction db bid2 tid).1 = .deleted ∧
      ((deleteTransaction db bid2 tid).2).products = db.products) := by
  obtain ⟨hpid, hpbid⟩ := findProduct_eq_of_some st.products li.productId bid p hfind
  have hnlt : ¬ p.stockQuantity < li.quantity := not_lt.mpr hq
  have hs0 : (0 : ℤ) ≤ p.stockQuantity := productValidate_stock_nonneg p hpv
  have hv1 : productValidate
      (productPreSave { p with stockQuantity := p.stockQuantity - li.quantity }) = true := by
    rw [productValidate_preSave]
    exact productValidate_setStock p _ hpv (sub_nonneg.mpr hq)
  have hproc : processLineItems bid req.type req.products st.products =
      (replaceProduct st.products li.productId
        (productPreSave { p with stockQuantity := p.stockQuantity - li.quantity }), none) := by
    rw [hprod, hty, processLineItems_cons, hfind]
    simp only [if_pos rfl, if_neg hnlt, saveProduct, hv1, if_true, processLineItems_nil]
    rw [hpid]
  have hcr := createTransaction_run_ok st bid newId req _ (by rw [hprod]; rfl) hproc htv htm
  have hfp1 : findProduct (replaceProduct st.products li.productId
      (productPreSave { p with stockQuantity := p.stockQuantity - li.quantity }))
      li.productId bid =
      some (productPreSave { p with stockQuantity := p.stockQuantity - li.quantity }) := by
    apply findProduct_replace_self st.products li.productId bid p _ hfind
    · rw [productPreSave_id]; exact hpid
    · rw [productPreSave_businessId]; exact hpbid
  have hstk1 : (productPreSave
      { p with stockQuantity := p.stockQuantity - li.quantity }).stockQuantity
      = p.stockQuantity - li.quantity := by
    rw [productPreSave_stockQuantity]
  have hfind1 : findTransaction (st.transactions ++ [mkTransactionDoc bid newId req])
      newId bid = some (mkTransactionDoc bid newId req) := by
    rw [findTransaction_append_none _ _ _ _ hfresh]
    unfold findTransaction
    rw [List.find?_cons_of_pos _ (by simp [mkTransactionDoc])]
  have hrem : removeTransaction (st.transactions ++ [mkTransactionDoc bid newId req])
      newId bid = st.transactions := by
    rw [removeTransaction_append_none _ _ _ _ hfresh]
    rw [removeTransaction_cons_of_pos _ _ _ _ (by simp [mkTransactionDoc])]
    simp
  have hv2 : productValidate (productPreSave
      { (productPreSave { p with stockQuantity := p.stockQuantity - li.quantity }) with
        stockQuantity :=
          (productPreSave
            { p with stockQuantity := p.stockQuantity - li.quantity }).stockQuantity
          + li.quantity }) = true := by
    rw [productValidate_preSave]
    apply productValidate_setStock _ _ hv1
    rw [hstk1, sub_add_cancel]
    exact hs0
  have hrs : restoreStock bid [li]
      (replaceProduct st.products li.productId
        (productPreSave { p with stockQuantity := p.stockQuantity - li.quantity })) =
      (replaceProduct
        (replaceProduct st.products li.productId
          (productPreSave { p with stockQuantity := p.stockQuantity - li.quantity }))
        li.productId
        (productPreSave
          { (productPreSave { p with stockQuantity := p.stockQuantity - li.quantity }) with
            stockQuantity :=
              (productPreSave
                { p with stockQuantity := p.stockQuantity - li.quantity }).stockQuantity
              + li.quantity }),
       none) := by
    rw [restoreStock_cons, hfp1]
    simp only [saveProduct]
    rw [if_pos hv2]
    simp only [restoreStock_nil, productPreSave_id]
    rw [hpid]
  have htyd : (mkTransactionDoc bid newId req).type = TxType.income := by
    simp [mkTransactionDoc, hty]
  have hpd : (mkTransactionDoc bid newId req).products = [li] := by
    simp [mkTransactionDoc, hprod]
  have hdel := deleteTransaction_run_income
    { products := replaceProduct st.products li.productId
        (productPreSave { p with stockQuantity := p.stockQuantity - li.quantity }),
      transactions := st.transactions ++ [mkTransactionDoc bid newId req] }
    bid newId (mkTransactionDoc bid newId req) _ hfind1 htyd (by rw [hpd]; exact hrs)
  have hfp2 : findProduct
      (replaceProduct
        (replaceProduct st.products li.productId
          (productPreSave { p with stockQuantity := p.stockQuantity - li.quantity }))
        li.productId
        (productPreSave
          { (productPreSave { p with stockQuantity := p.stockQuantity - li.quantity }) with
            stockQuantity :=
              (productPreSave
                { p with stockQuantity := p.stockQuantity - li.quantity }).stockQuantity
              + li.quantity }))
      li.productId bid =
      some (productPreSave
        { (productPreSave { p with stockQuantity := p.stockQuantity - li.quantity }) with
          stockQuantity :=
            (productPreSave
              { p with stockQuantity := p.stockQuantity - li.quantity }).stockQuantity
            + li.quantity }) := by
    apply findProduct_replace_self _ li.productId bid _ _ hfp1
    · simp only [productPreSave_id]
      exact hpid
    · simp only [productPreSave_businessId]
      exact hpbid
  refine ⟨?_, ?_, ?_, ?_, ?_, ?_⟩
  · rw [hcr]
  · rw [hcr]
    exact ⟨_, hfp1, hstk1⟩
  · rw [hcr, hdel]
  · rw [hcr, hdel]
    refine ⟨_, hfp2, ?_⟩
    simp only [productPreSave_stockQuantity]
    exact sub_add_cancel p.stockQuantity li.quantity
  · rw [hcr, hdel]
    exact hrem
  · intro db bid2 tid t hfind2 hty2 hmiss
    have hrs0 := restoreStock_of_missing bid2 t.products db.products hmiss
    have hd := deleteTransaction_run_income db bid2 tid t db.products hfind2 hty2 hrs0
    exact ⟨by rw [hd], by rw [hd]⟩

/-- Witness for C1 at a concrete input: selling 3 of 10 units and deleting
the created transaction; the deletion restores the original stock. -/
theorem c1_income_create_delete_roundtrip_witness :
    (createTransaction demoDb 7 5 c1Req).1 = .created (mkTransactionDoc 7 5 c1Req) ∧
    (∃ p2, findProduct
        ((deleteTransaction ((createTransaction demoDb 7 5 c1Req).2) 7 5).2).products
        (⟨1, 3, 10, 30⟩ : LineItem).productId 7 = some p2 ∧
      p2.stockQuantity = demoProduct.stockQuantity) :=
  ⟨(c1_income_create_delete_roundtrip demoDb 7 5 c1Req ⟨1, 3, 10, 30⟩ demoProduct
      (by with_unfolding_all decide) (by with_unfolding_all decide)
      (by with_unfolding_all decide) (by with_unfolding_all decide)
      (by with_unfolding_all decide) (by with_unfolding_all decide)
      (by with_unfolding_all decide) (by with_unfolding_all decide)).1,
   (c1_income_create_delete_roundtrip demoDb 7 5 c1Req ⟨1, 3, 10, 30⟩ demoProduct
      (by with_unfolding_all decide) (by with_unfolding_all decide)
      (by with_unfolding_all decide) (by with_unfolding_all decide)
      (by with_unfolding_all decide) (by with_unfolding_all decide)
      (by with_unfolding_all decide) (by with_unfolding_all decide)).2.2.2.1⟩

end PymeGo
